import Mathlib

/-!
Verification development for the problem6 live-scoreboard backend
(`src/problem6/src/{database,leaderboard,routes,app,cache}.ts`).

The SQLite tables become Lean lists, each row a structure; the async
service functions become pure state-passing functions returning
`Except String` for thrown errors.  Timestamps (`new Date().toISOString()`)
and generated ids (`uuidv4()`) are nondeterministic inputs and are passed
in as explicit `now` / `uuid` parameters.
-/

/-- Row of the `users` table (`id TEXT PRIMARY KEY, username TEXT`; the
email/createdAt columns play no role in scoring and are omitted). -/
structure UserRow where
  id : String
  username : String
  deriving DecidableEq, Repr

/-- Row of the `score_history` table. -/
structure ScoreHistoryEntry where
  id : String
  userId : String
  actionType : String
  scoreIncrease : Int
  timestamp : String
  deriving DecidableEq, Repr

/-- Row of the `idempotency` table (`action_id TEXT PRIMARY KEY`). -/
structure IdempotencyRecord where
  actionId : String
  userId : String
  timestamp : String
  deriving DecidableEq, Repr

/-- Row of the `actions` catalog table. -/
structure ActionRow where
  actionType : String
  scoreValue : Int
  deriving DecidableEq, Repr

/-- The SQLite database state. -/
structure DB where
  users : List UserRow
  scoreHistory : List ScoreHistoryEntry
  idempotency : List IdempotencyRecord
  actions : List ActionRow
  deriving DecidableEq, Repr

/-- Embeds `getTotalScore` (database.ts):
`SELECT COALESCE(SUM(score_increase), 0) FROM score_history WHERE user_id = ?`. -/
def getTotalScore (db : DB) (userId : String) : Int :=
  ((db.scoreHistory.filter (fun e => e.userId == userId)).map (fun e => e.scoreIncrease)).sum

/-- Embeds `getActionScoreValue` (database.ts):
`SELECT score_value FROM actions WHERE action_type = ?` followed by the JS
coercion `row?.score_value || null` — a missing row and a stored value of
`0` (falsy in JS) both produce `null`, i.e. `none`. -/
def getActionScoreValue (db : DB) (actionType : String) : Option Int :=
  match db.actions.find? (fun a => a.actionType == actionType) with
  | some a => if a.scoreValue == 0 then none else some a.scoreValue
  | none => none

/-- Embeds `isActionProcessed` (database.ts):
`SELECT action_id FROM idempotency WHERE action_id = ?`, coerced by `!!row`.
Only the `action_id` column is consulted, never the calling user. -/
def isActionProcessed (db : DB) (actionId : String) : Bool :=
  db.idempotency.any (fun r => r.actionId == actionId)

/-- Embeds `addScoreHistory` (database.ts): a single `INSERT` into
`score_history`, auto-committed on its own (no surrounding transaction). -/
def addScoreHistory (db : DB) (e : ScoreHistoryEntry) : DB :=
  { db with scoreHistory := db.scoreHistory ++ [e] }

/-- Embeds `recordAction` (database.ts): a single `INSERT` into
`idempotency`, auto-committed on its own (no surrounding transaction). -/
def recordAction (db : DB) (actionId userId now : String) : DB :=
  { db with idempotency := db.idempotency ++ [⟨actionId, userId, now⟩] }

/-- Embeds `getUserById` (database.ts). -/
def getUserById (db : DB) (id : String) : Option UserRow :=
  db.users.find? (fun u => u.id == id)

/-- One row of the `getAllUsersWithScores` aggregation. -/
structure ScoredUser where
  id : String
  username : String
  totalScore : Int
  lastUpdated : Option String
  deriving DecidableEq, Repr

/-- The `MAX(sh.timestamp)` aggregate of the `getAllUsersWithScores` query
(lexicographic maximum over ISO-8601 strings, `NULL` when the user has no
score-history rows). -/
def maxTimestamp (db : DB) (userId : String) : Option String :=
  ((db.scoreHistory.filter (fun e => e.userId == userId)).map (fun e => e.timestamp)).max?

/-- The pre-`ORDER BY` result of `getAllUsersWithScores` (database.ts):
every user in table order, joined with the sum and max-timestamp of their
score-history rows. -/
def usersWithScores (db : DB) : List ScoredUser :=
  db.users.map (fun u => ⟨u.id, u.username, getTotalScore db u.id, maxTimestamp db u.id⟩)

/-- Insertion step of a stable descending sort on `totalScore`: the new
element goes in front of the first element whose score is not strictly
greater.  Models `ORDER BY totalScore DESC`, which names no secondary sort
key, so tied rows keep their scan (table) order. -/
def insertScoreDesc (x : ScoredUser) : List ScoredUser → List ScoredUser
  | [] => [x]
  | y :: ys => if x.totalScore < y.totalScore then y :: insertScoreDesc x ys else x :: y :: ys

/-- Stable descending sort on `totalScore` (see `insertScoreDesc`). -/
def sortByScoreDesc : List ScoredUser → List ScoredUser
  | [] => []
  | x :: xs => insertScoreDesc x (sortByScoreDesc xs)

/-- Embeds `getAllUsersWithScores` (database.ts): aggregate per user,
`ORDER BY totalScore DESC`. -/
def getAllUsersWithScores (db : DB) : List ScoredUser :=
  sortByScoreDesc (usersWithScores db)

/-- Distinct user ids appearing in `score_history` — the rows of the
`GROUP BY user_id` subquery inside `getUserRank`. -/
def histUserIds (db : DB) : List String :=
  (db.scoreHistory.map (fun e => e.userId)).dedup

/-- Embeds `getUserRank` (leaderboard.ts):
`SELECT COUNT(*) + 1 FROM (SELECT user_id, SUM(score_increase) AS total
FROM score_history GROUP BY user_id) WHERE total > (the user's own sum)`.
Only users that have at least one score-history row are counted. -/
def getUserRank (db : DB) (userId : String) : Nat :=
  1 + ((histUserIds db).filter (fun u => getTotalScore db userId < getTotalScore db u)).length

/-- Embeds `getUserScoreAndRank` (leaderboard.ts). -/
def getUserScoreAndRank (db : DB) (userId : String) : Int × Nat :=
  (getTotalScore db userId, getUserRank db userId)

/-- Entry returned by `LeaderboardService.getTop10`.  `lastUpdated` is
`none` on the cache-hit path: the JSON stored by `cacheTop10` has no
`lastUpdated` field, so reading it back yields `undefined`. -/
structure Top10Entry where
  rank : Nat
  userId : String
  username : String
  score : Int
  lastUpdated : Option String
  deriving DecidableEq, Repr

/-- Rank assignment of the database path of `getTop10`:
`scoresWithUpdated.map((u, i) => ({rank: i + 1, ..., lastUpdated:
u.lastUpdated || new Date().toISOString()}))`. -/
def rankify (now : String) (firstRank : Nat) : List ScoredUser → List Top10Entry
  | [] => []
  | u :: us =>
    ⟨firstRank, u.id, u.username, u.totalScore, some (u.lastUpdated.getD now)⟩
      :: rankify now (firstRank + 1) us

/-- The cache-miss computation of `LeaderboardService.getTop10`: top ten of
the aggregation, ranks assigned by list position. -/
def computeTop10 (db : DB) (now : String) : List Top10Entry :=
  rankify now 1 ((getAllUsersWithScores db).take 10)

/-- Entry stored in the Redis top-10 sorted set by `cacheTop10` (cache.ts):
`JSON.stringify({userId, username, score})`. -/
structure CachedEntry where
  userId : String
  username : String
  score : Int
  deriving DecidableEq, Repr

/-- State of the Redis cache layer.  `down` models an unavailable client
(`this.client` null or the connection broken): every operation throws.
`up s` is a reachable client holding snapshot `s` under the top-10 key. -/
inductive Cache where
  | down : Cache
  | up : Option (List CachedEntry) → Cache
  deriving DecidableEq, Repr

/-- Embeds `CacheService.getTop10` (cache.ts): `zRange` read, `null` when
empty.  The member scores `10 - i` make `zRange ... REV` return entries in
stored list order. -/
def CacheService.getTop10 : Cache → Except String (Option (List CachedEntry))
  | .down => .error "Redis not connected"
  | .up none => .ok none
  | .up (some l) => if l.isEmpty then .ok none else .ok (some l)

/-- Embeds `CacheService.cacheTop10` (cache.ts): delete the key, then store
the first ten entries (nothing is stored for an empty list). -/
def CacheService.cacheTop10 : Cache → List CachedEntry → Except String Cache
  | .down, _ => .error "Redis not connected"
  | .up _, l => .ok (.up (if l.isEmpty then none else some (l.take 10)))

/-- Embeds `CacheService.invalidateTop10` (cache.ts): delete the key. -/
def CacheService.invalidateTop10 : Cache → Except String Cache
  | .down => .error "Redis not connected"
  | .up _ => .ok (.up none)

/-- Result shape of `LeaderboardService.getTop10`; `cachedAt` is present
exactly when the result was served from the cache. -/
structure GetTop10Result where
  scores : List Top10Entry
  cachedAt : Option String
  deriving DecidableEq, Repr

/-- Rank assignment of the cache-hit path: `CacheService.getTop10` attaches
`rank: index + 1`; the stored JSON has no `lastUpdated`, so it comes back
`undefined` (`none`). -/
def rankCached (firstRank : Nat) : List CachedEntry → List Top10Entry
  | [] => []
  | c :: cs => ⟨firstRank, c.userId, c.username, c.score, none⟩ :: rankCached (firstRank + 1) cs

/-- Embeds `LeaderboardService.getTop10` (leaderboard.ts).  The `try`
block's `catch` clause logs the error and rethrows it (`throw err`), so a
cache-layer fault propagates to the caller; only a successful-but-empty
cache read (`.ok none`) falls through to the database aggregation. -/
def LeaderboardService.getTop10 (db : DB) (cache : Cache) (now : String) :
    Except String (GetTop10Result × Cache) :=
  match CacheService.getTop10 cache with
  | .error e => .error e
  | .ok (some cached) => .ok ({ scores := rankCached 1 cached, cachedAt := some now }, cache)
  | .ok none =>
    let top10ForCache :=
      ((getAllUsersWithScores db).take 10).map (fun u => CachedEntry.mk u.id u.username u.totalScore)
    match CacheService.cacheTop10 cache top10ForCache with
    | .error e => .error e
    | .ok cache' => .ok ({ scores := computeTop10 db now, cachedAt := none }, cache')

/-- Return value of `LeaderboardService.updateScore`. -/
structure ScoreUpdateResult where
  userId : String
  previousScore : Int
  newScore : Int
  scoreIncrease : Int
  rank : Nat
  timestamp : String
  deriving DecidableEq, Repr

/-- Whole-system state: database, Redis cache, and the log of payloads sent
through `app.locals.broadcastScoreUpdate` (app.ts).  That function is
defined but no code path ever invokes it, so no operation in this
development appends to `published`. -/
structure SysState where
  db : DB
  cache : Cache
  published : List ScoreUpdateResult
  deriving DecidableEq, Repr

/-- Infrastructure-fault schedule for the two `INSERT` statements of the
update path.  A read that fails aborts before any write, which is trivially
atomic; the interesting failure points are the writes. -/
structure StoreFaults where
  failAddScoreHistory : Bool
  failRecordAction : Bool
  deriving DecidableEq, Repr

/-- Embeds `LeaderboardService.updateScore` (leaderboard.ts), with explicit
store-fault points.  Program order: `isActionProcessed` (replay short
circuit), `getActionScoreValue` with the falsy test `if (!scoreValue)`,
`getTotalScore`, `addScoreHistory`, `recordAction`,
`getTotalScore`, `cacheService.invalidateTop10`, `getUserRank`.  Each
`INSERT` auto-commits on its own; a rejection at any step propagates out of
the `async` function with every earlier write already durable. -/
def LeaderboardService.updateScoreWith (f : StoreFaults) (s : SysState)
    (userId actionId actionType uuid now : String) :
    Except String ScoreUpdateResult × SysState :=
  if isActionProcessed s.db actionId then
    (.ok { userId := userId, previousScore := getTotalScore s.db userId,
           newScore := getTotalScore s.db userId, scoreIncrease := 0,
           rank := getUserRank s.db userId, timestamp := now }, s)
  else
    match getActionScoreValue s.db actionType with
    | none => (.error ("Invalid action type: " ++ actionType), s)
    | some v =>
      let previousScore := getTotalScore s.db userId
      if f.failAddScoreHistory then (.error "SQLITE_ERROR", s)
      else
        let db1 := addScoreHistory s.db ⟨uuid, userId, actionType, v, now⟩
        if f.failRecordAction then (.error "SQLITE_ERROR", { s with db := db1 })
        else
          let db2 := recordAction db1 actionId userId now
          let newScore := getTotalScore db2 userId
          match CacheService.invalidateTop10 s.cache with
          | .error e => (.error e, { s with db := db2 })
          | .ok cache' =>
            (.ok { userId := userId, previousScore := previousScore, newScore := newScore,
                   scoreIncrease := v, rank := getUserRank db2 userId, timestamp := now },
             { s with db := db2, cache := cache' })

/-- Embeds `LeaderboardService.updateScore` on fault-free infrastructure. -/
def LeaderboardService.updateScore (s : SysState) (userId actionId actionType uuid now : String) :
    Except String ScoreUpdateResult × SysState :=
  LeaderboardService.updateScoreWith ⟨false, false⟩ s userId actionId actionType uuid now

deriving instance DecidableEq for Except

/-- JS falsiness of a possibly-absent string (`!x` is true for `undefined`
and for the empty string). -/
def jsFalsyStr : Option String → Bool
  | none => true
  | some s => s == ""

/-- JS substring test `s.includes(pat)`: the pattern's character sequence
occurs contiguously inside the string. -/
def jsIncludes (s pat : String) : Bool :=
  decide (pat.data <:+: s.data)

/-- JS `err.message.includes('Invalid action type')` (routes.ts error
mapping). -/
def includesInvalidActionType (msg : String) : Bool :=
  jsIncludes msg "Invalid action type"

/-- HTTP response shape of `POST /api/scores/update`. -/
structure ApiResponse where
  status : Nat
  success : Bool
  error : Option String
  code : Option String
  data : Option ScoreUpdateResult
  deriving DecidableEq, Repr

/-- Embeds the `POST /api/scores/update` handler (routes.ts): auth check,
field presence checks, `getUserById` 404, then `updateScore`; a thrown
message containing `Invalid action type` maps to 400 with code
`INVALID_ACTION_TYPE`, anything else to 500.  The handler never touches
`app.locals.broadcastScoreUpdate`, so `published` is returned unchanged on
every path. -/
def handleScoreUpdate (s : SysState) (userId actionId actionType : Option String)
    (uuid now : String) : ApiResponse × SysState :=
  if jsFalsyStr userId then
    ({ status := 401, success := false, error := some "User not authenticated",
       code := none, data := none }, s)
  else if jsFalsyStr actionId || jsFalsyStr actionType then
    ({ status := 400, success := false,
       error := some "Missing required fields: actionId, actionType",
       code := none, data := none }, s)
  else
    match getUserById s.db (userId.getD "") with
    | none =>
      ({ status := 404, success := false, error := some "User not found",
         code := none, data := none }, s)
    | some _ =>
      match LeaderboardService.updateScore s (userId.getD "") (actionId.getD "") (actionType.getD "") uuid now with
      | (.ok r, s') =>
        ({ status := 200, success := true, error := none, code := none, data := some r }, s')
      | (.error m, s') =>
        if includesInvalidActionType m then
          ({ status := 400, success := false, error := some m,
             code := some "INVALID_ACTION_TYPE", data := none }, s')
        else
          ({ status := 500, success := false, error := some "Failed to update score",
             code := none, data := none }, s')

/-! ### Concrete states used by counterexamples and witnesses -/

/-- Two users tied at 200 points; B's event carries the earlier timestamp,
i.e. B reached the score first, while A precedes B in the users table. -/
def dbTie : DB :=
  { users := [⟨"A", "alice"⟩, ⟨"B", "bob"⟩],
    scoreHistory := [⟨"h1", "B", "milestone", 200, "2025-01-01T00:00:01Z"⟩,
                     ⟨"h2", "A", "milestone", 200, "2025-01-01T00:00:02Z"⟩],
    idempotency := [],
    actions := [⟨"milestone", 200⟩] }

/-- One registered user, a two-entry catalog (one action worth 50, one
configured with value 0), empty history and idempotency tables. -/
def dbFresh : DB :=
  { users := [⟨"A", "alice"⟩],
    scoreHistory := [],
    idempotency := [],
    actions := [⟨"quest_complete", 50⟩, ⟨"zero_action", 0⟩] }

/-- System state over `dbFresh` with a reachable, empty cache. -/
def sFresh : SysState := { db := dbFresh, cache := Cache.up none, published := [] }

/-- State in which event id `e1` was already consumed for user A, who holds
50 points from it. -/
def dbReplay : DB :=
  { dbFresh with
    scoreHistory := [⟨"h1", "A", "quest_complete", 50, "t0"⟩],
    idempotency := [⟨"e1", "A", "t0"⟩] }

/-- System state over `dbReplay` with a reachable, empty cache. -/
def sReplay : SysState := { db := dbReplay, cache := Cache.up none, published := [] }

/-- Database reached from `dbFresh` when the `score_history` INSERT
committed but the `idempotency` INSERT failed. -/
def dbTorn : DB :=
  { dbFresh with scoreHistory := [⟨"u1", "A", "quest_complete", 50, "t1"⟩] }

/-- Two users with distinct, non-negative totals: B holds 200, A holds 50. -/
def dbRank : DB :=
  { users := [⟨"A", "alice"⟩, ⟨"B", "bob"⟩],
    scoreHistory := [⟨"h1", "A", "quest_complete", 50, "t1"⟩,
                     ⟨"h2", "B", "milestone", 200, "t2"⟩],
    idempotency := [],
    actions := [⟨"quest_complete", 50⟩, ⟨"milestone", 200⟩] }

/-- Result of the first, accepted application of event `e1` over `sFresh`. -/
def r1Fresh : ScoreUpdateResult :=
  { userId := "A", previousScore := 0, newScore := 50, scoreIncrease := 50,
    rank := 1, timestamp := "t1" }

/-- State after that first application: history row and idempotency row
recorded, cache invalidated. -/
def s1Fresh : SysState :=
  { db := { dbFresh with
            scoreHistory := [⟨"u1", "A", "quest_complete", 50, "t1"⟩]
            idempotency := [⟨"e1", "A", "t1"⟩] }
    cache := Cache.up none
    published := [] }

/-! ### Helper lemmas -/

theorem includesInvalidActionType_of_message (t : String) :
    includesInvalidActionType ("Invalid action type: " ++ t) = true := by
  unfold includesInvalidActionType jsIncludes
  refine decide_eq_true ⟨[], (": " ++ t).data, ?_⟩
  simp

theorem updateScoreWith_preserves_published (f : StoreFaults) (s : SysState)
    (userId actionId actionType uuid now : String) :
    (LeaderboardService.updateScoreWith f s userId actionId actionType uuid now).2.published
      = s.published := by
  unfold LeaderboardService.updateScoreWith
  repeat' split
  all_goals rfl

theorem updateScore_replay (s : SysState) (uid aid atype uuid now : String)
    (h : isActionProcessed s.db aid = true) :
    LeaderboardService.updateScore s uid aid atype uuid now
      = (.ok { userId := uid, previousScore := getTotalScore s.db uid,
               newScore := getTotalScore s.db uid, scoreIncrease := 0,
               rank := getUserRank s.db uid, timestamp := now }, s) := by
  unfold LeaderboardService.updateScore LeaderboardService.updateScoreWith
  simp [h]

theorem updateScore_unknown_action (s : SysState) (uid aid atype uuid now : String)
    (h1 : isActionProcessed s.db aid = false)
    (h2 : getActionScoreValue s.db atype = none) :
    LeaderboardService.updateScore s uid aid atype uuid now
      = (.error ("Invalid action type: " ++ atype), s) := by
  unfold LeaderboardService.updateScore LeaderboardService.updateScoreWith
  simp [h1, h2]

theorem updateScore_ok_inversion (s : SysState) (uid aid atype uuid now : String)
    (r : ScoreUpdateResult) (s' : SysState)
    (hproc : isActionProcessed s.db aid = false)
    (h : LeaderboardService.updateScore s uid aid atype uuid now = (.ok r, s')) :
    ∃ v cache', getActionScoreValue s.db atype = some v
      ∧ CacheService.invalidateTop10 s.cache = .ok cache'
      ∧ s' = { s with
               db := recordAction (addScoreHistory s.db ⟨uuid, uid, atype, v, now⟩) aid uid now
               cache := cache' }
      ∧ r = { userId := uid, previousScore := getTotalScore s.db uid,
              newScore := getTotalScore s'.db uid, scoreIncrease := v,
              rank := getUserRank s'.db uid, timestamp := now } := by
  unfold LeaderboardService.updateScore LeaderboardService.updateScoreWith at h
  rw [hproc] at h
  simp only [Bool.false_eq_true, if_false] at h
  cases hval : getActionScoreValue s.db atype with
  | none => rw [hval] at h; simp at h
  | some v =>
    rw [hval] at h
    simp only at h
    cases hcache : CacheService.invalidateTop10 s.cache with
    | error e => rw [hcache] at h; simp at h
    | ok cache' =>
      rw [hcache] at h
      simp only [Prod.mk.injEq, Except.ok.injEq] at h
      obtain ⟨hr, hs⟩ := h
      refine ⟨v, cache', rfl, rfl, hs.symm, ?_⟩
      rw [← hr, ← hs]

/-! ### Claim theorems -/

/-- C1: the claim demands that the ScoreEvent insert and the
ProcessedEventRecord insert are atomic — both rows or neither in every
reachable post-state, even when an individual store operation fails.  The
code issues two separately auto-committed INSERTs with no transaction, so
when the `idempotency` INSERT fails right after the `score_history` INSERT
committed, the reachable post-state `dbTorn` holds the new history row and
no idempotency row. -/
theorem C1_partial_write_reachable :
    LeaderboardService.updateScoreWith ⟨false, true⟩ sFresh "A" "e1" "quest_complete" "u1" "t1"
      = (.error "SQLITE_ERROR", { db := dbTorn, cache := Cache.up none, published := [] })
    ∧ dbTorn.scoreHistory = [⟨"u1", "A", "quest_complete", 50, "t1"⟩]
    ∧ dbTorn.idempotency = [] := ⟨rfl, rfl, rfl⟩

/-- C3 as stated is false: with the cache layer unavailable, `getTop10`
does not fall back to direct aggregation — its catch block rethrows, so the
cache fault reaches the caller. -/
theorem C3_cache_down_error_propagates :
    LeaderboardService.getTop10 dbFresh Cache.down "t1" = .error "Redis not connected" := rfl

/-- C3 amended: a cache fault propagates out of `getTop10` as an error;
only a reachable-but-empty cache (a miss) falls back to direct aggregation
over the event store. -/
theorem C3_fault_vs_miss_semantics :
    ∀ (db : DB) (now : String),
      LeaderboardService.getTop10 db Cache.down now = .error "Redis not connected"
      ∧ ∃ c', LeaderboardService.getTop10 db (Cache.up none) now
            = .ok ({ scores := computeTop10 db now, cachedAt := none }, c') := by
  intro db now
  exact ⟨rfl, ⟨_, rfl⟩⟩

/-- C8 is false of the code: `app.locals.broadcastScoreUpdate` is defined
in app.ts but never invoked on any path of the update handler, so no score
mutation is ever followed by a publish — the notification log is unchanged
by every call, successful mutations included. -/
theorem C8_no_notification_ever_published :
    ∀ (s : SysState) (userId actionId actionType : Option String) (uuid now : String),
      ((handleScoreUpdate s userId actionId actionType uuid now).2).published = s.published := by
  intro s userId actionId actionType uuid now
  unfold handleScoreUpdate
  split
  · rfl
  split
  · rfl
  split
  · rfl
  split
  next r s' heq =>
    have h2 := congrArg (fun p => p.2.published) heq
    simpa using ((updateScoreWith_preserves_published ⟨false, false⟩ s _ _ _ uuid now).symm.trans h2).symm
  next m s' heq =>
    have h2 := congrArg (fun p => p.2.published) heq
    have h3 := (updateScoreWith_preserves_published ⟨false, false⟩ s _ _ _ uuid now).symm.trans h2
    simp only at h3
    split
    · simpa using h3.symm
    · simpa using h3.symm

/-- C9: the idempotency lookup is keyed on `action_id` alone; an event id
first consumed for user A turns a later call for a different user B into a
silent no-op success that reports B's own unchanged score and rank. -/
theorem C9_idempotency_ignores_user :
    ∀ (s : SysState) (rec : IdempotencyRecord) (b atype uuid now : String),
      rec ∈ s.db.idempotency → rec.userId ≠ b →
      LeaderboardService.updateScore s b rec.actionId atype uuid now
        = (.ok { userId := b, previousScore := getTotalScore s.db b,
                 newScore := getTotalScore s.db b, scoreIncrease := 0,
                 rank := getUserRank s.db b, timestamp := now }, s) := by
  intro s rec b atype uuid now hmem _
  apply updateScore_replay
  simp only [isActionProcessed, List.any_eq_true]
  exact ⟨rec, hmem, by simp⟩

/-- Witness for C9: `e1` was consumed for A, yet the call for B succeeds
with delta 0, B's score 0 and rank 2, and the state untouched. -/
theorem C9_idempotency_ignores_user_witness :
    (⟨"e1", "A", "t0"⟩ : IdempotencyRecord) ∈ sReplay.db.idempotency
    ∧ ("A" : String) ≠ "B"
    ∧ LeaderboardService.updateScore sReplay "B" "e1" "quest_complete" "u9" "t9"
        = (.ok { userId := "B", previousScore := 0, newScore := 0, scoreIncrease := 0,
                 rank := 2, timestamp := "t9" }, sReplay) := by
  refine ⟨by decide, by decide, ?_⟩
  have h := C9_idempotency_ignores_user sReplay ⟨"e1", "A", "t0"⟩ "B" "quest_complete" "u9" "t9"
    (by decide) (by decide)
  rw [h]
  decide

/-- C10: a catalog row configured with `score_value = 0` is rejected
exactly like a missing row: `row?.score_value || null` nulls out the falsy
value, and `updateScore` throws `Invalid action type` without recording
anything. -/
theorem C10_zero_catalog_value_rejected :
    ∀ (s : SysState) (uid aid atype uuid now : String) (a : ActionRow),
      isActionProcessed s.db aid = false →
      s.db.actions.find? (fun x => x.actionType == atype) = some a →
      a.scoreValue = 0 →
      LeaderboardService.updateScore s uid aid atype uuid now
        = (.error ("Invalid action type: " ++ atype), s) := by
  intro s uid aid atype uuid now a h1 h2 h3
  apply updateScore_unknown_action s uid aid atype uuid now h1
  unfold getActionScoreValue
  rw [h2]
  simp [h3]

/-- Witness for C10: `zero_action` is configured with value 0 in `dbFresh`
and is rejected with the `Invalid action type` error, state unchanged. -/
theorem C10_zero_catalog_value_rejected_witness :
    isActionProcessed sFresh.db "e7" = false
    ∧ sFresh.db.actions.find? (fun x => x.actionType == "zero_action") = some ⟨"zero_action", 0⟩
    ∧ (⟨"zero_action", 0⟩ : ActionRow).scoreValue = 0
    ∧ LeaderboardService.updateScore sFresh "A" "e7" "zero_action" "u7" "t7"
        = (.error "Invalid action type: zero_action", sFresh) := by
  refine ⟨by decide, by decide, by decide, ?_⟩
  have h := C10_zero_catalog_value_rejected sFresh "A" "e7" "zero_action" "u7" "t7"
    ⟨"zero_action", 0⟩ (by decide) (by decide) (by decide)
  rw [h]
  decide

/-- C5 as stated is false: the idempotency check runs before the catalog
lookup, so a call whose eventId was already processed succeeds as a replay
no-op even when the actionKind is unknown — no `Invalid action type` error
is raised. -/
theorem C5_replay_bypasses_catalog_check :
    getActionScoreValue sReplay.db "totally_unknown" = none
    ∧ handleScoreUpdate sReplay (some "A") (some "e1") (some "totally_unknown") "u1" "t1"
        = ({ status := 200, success := true, error := none, code := none,
             data := some { userId := "A", previousScore := 50, newScore := 50,
                            scoreIncrease := 0, rank := 1, timestamp := "t1" } }, sReplay) := by
  exact ⟨rfl, by decide⟩

/-- C5 amended: for calls whose eventId is not yet processed, an actionKind
missing from the catalog (no row, or a falsy stored value) makes
`updateScore` throw `Invalid action type` with no state change, and the
route handler surfaces it as HTTP 400 with code INVALID_ACTION_TYPE. -/
theorem C5_unknown_action_rejected_when_unseen :
    ∀ (s : SysState) (uid aid atype uuid now : String),
      isActionProcessed s.db aid = false →
      getActionScoreValue s.db atype = none →
      uid ≠ "" → aid ≠ "" → atype ≠ "" →
      (getUserById s.db uid).isSome = true →
      LeaderboardService.updateScore s uid aid atype uuid now
        = (.error ("Invalid action type: " ++ atype), s)
      ∧ handleScoreUpdate s (some uid) (some aid) (some atype) uuid now
          = ({ status := 400, success := false,
               error := some ("Invalid action type: " ++ atype),
               code := some "INVALID_ACTION_TYPE", data := none }, s) := by
  intro s uid aid atype uuid now h1 h2 hu ha ht hex
  have hupd := updateScore_unknown_action s uid aid atype uuid now h1 h2
  refine ⟨hupd, ?_⟩
  obtain ⟨u, hu2⟩ := Option.isSome_iff_exists.mp hex
  have hu' : (uid == "") = false := beq_eq_false_iff_ne.mpr hu
  have ha' : (aid == "") = false := beq_eq_false_iff_ne.mpr ha
  have ht' : (atype == "") = false := beq_eq_false_iff_ne.mpr ht
  unfold handleScoreUpdate
  simp only [jsFalsyStr, hu', ha', ht', Bool.or_self, Bool.false_eq_true, if_false,
    Option.getD_some, hu2, hupd, includesInvalidActionType_of_message, if_true]

/-- Witness for C5 amended: `bogus` is not in the catalog of `sFresh`, and
the call for the fresh event id `e9` is rejected with HTTP 400 /
INVALID_ACTION_TYPE, state unchanged. -/
theorem C5_unknown_action_rejected_when_unseen_witness :
    isActionProcessed sFresh.db "e9" = false
    ∧ getActionScoreValue sFresh.db "bogus" = none
    ∧ (getUserById sFresh.db "A").isSome = true
    ∧ handleScoreUpdate sFresh (some "A") (some "e9") (some "bogus") "u9" "t9"
        = ({ status := 400, success := false, error := some "Invalid action type: bogus",
             code := some "INVALID_ACTION_TYPE", data := none }, sFresh) := by
  refine ⟨by decide, by decide, by decide, ?_⟩
  have h := (C5_unknown_action_rejected_when_unseen sFresh "A" "e9" "bogus" "u9" "t9"
    (by decide) (by decide) (by decide) (by decide) (by decide) (by decide)).2
  rw [h]
  decide

/-- C4: replayed event ids are invisible no-ops — with eventId already
processed, `updateScore` returns the current score as both previous and
new, delta 0 and the current rank, touching neither the store, nor the
cache, nor the notification log; and after an accepted first application,
a second call with the same eventId returns the same newScore and rank,
leaves the state fixed, and the two calls together append exactly one
score-history row. -/
theorem C4_replay_idempotent :
    (∀ (s : SysState) (uid aid atype uuid now : String),
        isActionProcessed s.db aid = true →
        LeaderboardService.updateScore s uid aid atype uuid now
          = (.ok { userId := uid, previousScore := getTotalScore s.db uid,
                   newScore := getTotalScore s.db uid, scoreIncrease := 0,
                   rank := getUserRank s.db uid, timestamp := now }, s))
    ∧ (∀ (s : SysState) (uid aid atype uuid now uuid2 now2 : String)
         (r1 : ScoreUpdateResult) (s1 : SysState),
        isActionProcessed s.db aid = false →
        LeaderboardService.updateScore s uid aid atype uuid now = (.ok r1, s1) →
        ∃ r2 : ScoreUpdateResult,
          LeaderboardService.updateScore s1 uid aid atype uuid2 now2 = (.ok r2, s1)
          ∧ r2.newScore = r1.newScore ∧ r2.rank = r1.rank ∧ r2.scoreIncrease = 0
          ∧ s1.db.scoreHistory.length = s.db.scoreHistory.length + 1) := by
  refine ⟨fun s uid aid atype uuid now h => updateScore_replay s uid aid atype uuid now h, ?_⟩
  intro s uid aid atype uuid now uuid2 now2 r1 s1 hproc h1
  obtain ⟨v, cache', hval, hcache, hs1, hr1⟩ :=
    updateScore_ok_inversion s uid aid atype uuid now r1 s1 hproc h1
  have hproc2 : isActionProcessed s1.db aid = true := by
    rw [hs1]
    simp [isActionProcessed, recordAction, addScoreHistory]
  refine ⟨_, updateScore_replay s1 uid aid atype uuid2 now2 hproc2, ?_, ?_, rfl, ?_⟩
  · rw [hr1]
  · rw [hr1]
  · rw [hs1]
    simp [recordAction, addScoreHistory]

/-- Witness for C4: over `sReplay` the replay returns 50/50/delta 0/rank 1
without touching the state; over `sFresh` the accepted first call appends
one history row and the repeated call is a fixed point with the same
newScore and rank. -/
theorem C4_replay_idempotent_witness :
    (isActionProcessed sReplay.db "e1" = true
      ∧ LeaderboardService.updateScore sReplay "A" "e1" "quest_complete" "u3" "t3"
          = (.ok { userId := "A", previousScore := 50, newScore := 50, scoreIncrease := 0,
                   rank := 1, timestamp := "t3" }, sReplay))
    ∧ (isActionProcessed sFresh.db "e1" = false
      ∧ LeaderboardService.updateScore sFresh "A" "e1" "quest_complete" "u1" "t1"
          = (.ok r1Fresh, s1Fresh)
      ∧ (LeaderboardService.updateScore s1Fresh "A" "e1" "quest_complete" "u2" "t2").2 = s1Fresh
      ∧ s1Fresh.db.scoreHistory.length = sFresh.db.scoreHistory.length + 1) := by
  constructor
  · refine ⟨by decide, ?_⟩
    have h := C4_replay_idempotent.1 sReplay "A" "e1" "quest_complete" "u3" "t3" (by decide)
    rw [h]
    decide
  · refine ⟨by decide, by decide, ?_, by decide⟩
    obtain ⟨r2, h2, _⟩ := C4_replay_idempotent.2 sFresh "A" "e1" "quest_complete" "u1" "t1" "u2" "t2"
      r1Fresh s1Fresh (by decide) (by decide)
    exact congrArg Prod.snd h2

/-- C6: the score reported by `getUserScoreAndRank` is exactly the sum of
`score_increase` over the user's score-history rows (0 for a user with no
rows — there is no separately stored counter in the schema), and the
`newScore` reported by every accepted `updateScore` equals that same
independent aggregation over the post-state event log. -/
theorem C6_score_is_sum_of_events :
    (∀ (db : DB) (uid : String),
        (getUserScoreAndRank db uid).1
          = ((db.scoreHistory.filter (fun e => e.userId == uid)).map (fun e => e.scoreIncrease)).sum)
    ∧ (∀ (db : DB) (uid : String),
        db.scoreHistory.filter (fun e => e.userId == uid) = [] →
        (getUserScoreAndRank db uid).1 = 0)
    ∧ (∀ (s : SysState) (uid aid atype uuid now : String) (r : ScoreUpdateResult) (s' : SysState),
        LeaderboardService.updateScore s uid aid atype uuid now = (.ok r, s') →
        r.newScore
          = ((s'.db.scoreHistory.filter (fun e => e.userId == uid)).map
              (fun e => e.scoreIncrease)).sum) := by
  refine ⟨fun db uid => rfl, fun db uid h => by simp [getUserScoreAndRank, getTotalScore, h], ?_⟩
  intro s uid aid atype uuid now r s' h
  cases hproc : isActionProcessed s.db aid with
  | true =>
    rw [updateScore_replay s uid aid atype uuid now hproc] at h
    simp only [Prod.mk.injEq, Except.ok.injEq] at h
    obtain ⟨hr, hs⟩ := h
    rw [← hr, ← hs]
    rfl
  | false =>
    obtain ⟨v, cache', _, _, _, hr⟩ := updateScore_ok_inversion s uid aid atype uuid now r s' hproc h
    rw [hr]
    rfl

/-- Witness for C6: user `Z` has no events and score 0; the accepted
application of `e1` reports newScore 50, equal to the sum over the
post-state log. -/
theorem C6_score_is_sum_of_events_witness :
    (dbFresh.scoreHistory.filter (fun e => e.userId == "Z") = []
      ∧ (getUserScoreAndRank dbFresh "Z").1 = 0)
    ∧ (LeaderboardService.updateScore sFresh "A" "e1" "quest_complete" "u1" "t1"
          = (.ok r1Fresh, s1Fresh)
      ∧ r1Fresh.newScore
          = ((s1Fresh.db.scoreHistory.filter (fun e => e.userId == "A")).map
              (fun e => e.scoreIncrease)).sum) := by
  refine ⟨⟨by decide, C6_score_is_sum_of_events.2.1 dbFresh "Z" (by decide)⟩, by decide, ?_⟩
  exact C6_score_is_sum_of_events.2.2 sFresh "A" "e1" "quest_complete" "u1" "t1" r1Fresh s1Fresh
    (by decide)

/-! ### Sorting lemmas for the `ORDER BY totalScore DESC` embedding -/

theorem mem_insertScoreDesc (a x : ScoredUser) (l : List ScoredUser) :
    a ∈ insertScoreDesc x l ↔ a = x ∨ a ∈ l := by
  induction l with
  | nil => simp [insertScoreDesc]
  | cons y ys ih =>
    simp only [insertScoreDesc]
    split
    · simp only [List.mem_cons, ih]
      tauto
    · exact List.mem_cons

theorem insertScoreDesc_perm (x : ScoredUser) (l : List ScoredUser) :
    List.Perm (insertScoreDesc x l) (x :: l) := by
  induction l with
  | nil => exact List.Perm.refl _
  | cons y ys ih =>
    simp only [insertScoreDesc]
    split
    · exact (ih.cons y).trans (List.Perm.swap x y ys)
    · exact List.Perm.refl _

theorem sortByScoreDesc_perm (l : List ScoredUser) :
    List.Perm (sortByScoreDesc l) l := by
  induction l with
  | nil => exact List.Perm.refl _
  | cons x xs ih => exact (insertScoreDesc_perm x (sortByScoreDesc xs)).trans (ih.cons x)

theorem pairwise_insertScoreDesc (x : ScoredUser) (l : List ScoredUser)
    (h : List.Pairwise (fun a b => b.totalScore ≤ a.totalScore) l) :
    List.Pairwise (fun a b => b.totalScore ≤ a.totalScore) (insertScoreDesc x l) := by
  induction l with
  | nil => simp [insertScoreDesc]
  | cons y ys ih =>
    rcases List.pairwise_cons.1 h with ⟨hy, hys⟩
    simp only [insertScoreDesc]
    by_cases hlt : x.totalScore < y.totalScore
    · rw [if_pos hlt]
      refine List.pairwise_cons.2 ⟨?_, ih hys⟩
      intro b hb
      rcases (mem_insertScoreDesc b x ys).1 hb with hbx | hbys
      · rw [hbx]; exact le_of_lt hlt
      · exact hy b hbys
    · rw [if_neg hlt]
      push_neg at hlt
      refine List.pairwise_cons.2 ⟨?_, h⟩
      intro b hb
      rcases List.mem_cons.1 hb with hby | hbys
      · rw [hby]; exact hlt
      · exact le_trans (hy b hbys) hlt

theorem sortByScoreDesc_pairwise (l : List ScoredUser) :
    List.Pairwise (fun a b => b.totalScore ≤ a.totalScore) (sortByScoreDesc l) := by
  induction l with
  | nil => simp [sortByScoreDesc]
  | cons x xs ih => exact pairwise_insertScoreDesc x _ ih

theorem filter_insertScoreDesc (x : ScoredUser) (l : List ScoredUser) (c : Int) :
    (insertScoreDesc x l).filter (fun u => u.totalScore == c)
      = if x.totalScore == c then x :: l.filter (fun u => u.totalScore == c)
        else l.filter (fun u => u.totalScore == c) := by
  induction l with
  | nil =>
    by_cases hx : (x.totalScore == c) = true <;>
      simp [insertScoreDesc, List.filter_cons, hx]
  | cons y ys ih =>
    simp only [insertScoreDesc]
    by_cases hlt : x.totalScore < y.totalScore
    · rw [if_pos hlt]
      by_cases hx : (x.totalScore == c) = true
      · have hy : (y.totalScore == c) = false := by
          rw [beq_eq_false_iff_ne]
          have hxc : x.totalScore = c := beq_iff_eq.mp hx
          omega
        rw [List.filter_cons, ih]
        simp [hx, hy]
      · rw [List.filter_cons, ih]
        by_cases hy : (y.totalScore == c) = true <;> simp [hx, hy]
    · rw [if_neg hlt]
      by_cases hx : (x.totalScore == c) = true <;> simp [List.filter_cons, hx]

theorem sortByScoreDesc_filter (l : List ScoredUser) (c : Int) :
    (sortByScoreDesc l).filter (fun u => u.totalScore == c)
      = l.filter (fun u => u.totalScore == c) := by
  induction l with
  | nil => rfl
  | cons x xs ih =>
    simp only [sortByScoreDesc]
    rw [filter_insertScoreDesc, List.filter_cons, ih]

/-- C7 as stated is false: in `dbTie` both users hold 200 and B reached the
score at the earlier timestamp, yet the top-10 list puts A at rank 1 and B
at rank 2 — the earlier achiever gets the worse rank.  The sort key is
`totalScore` alone, so tied rows keep the users-table scan order. -/
theorem C7_earlier_achiever_ranked_worse :
    getTotalScore dbTie "A" = getTotalScore dbTie "B"
    ∧ maxTimestamp dbTie "B" = some "2025-01-01T00:00:01Z"
    ∧ maxTimestamp dbTie "A" = some "2025-01-01T00:00:02Z"
    ∧ (computeTop10 dbTie "t").map (fun e => (e.rank, e.userId)) = [(1, "A"), (2, "B")] :=
  ⟨rfl, rfl, rfl, rfl⟩

/-- C7 amended: the aggregation is sorted by score descending, and tied
users appear exactly in users-table (registration/scan) order — the
sort is stable with no achievement-time key.  In this pure embedding the
output is a function of the store state alone, so repeated calls without
intervening events trivially list tied users in the same relative order,
but the fixed order is table order, not earlier-achiever-wins. -/
theorem C7_tie_order_is_table_order :
    ∀ (db : DB) (c : Int),
      List.Pairwise (fun a b => b.totalScore ≤ a.totalScore) (getAllUsersWithScores db)
      ∧ (getAllUsersWithScores db).filter (fun u => u.totalScore == c)
          = (usersWithScores db).filter (fun u => u.totalScore == c) := by
  intro db c
  exact ⟨sortByScoreDesc_pairwise (usersWithScores db),
         sortByScoreDesc_filter (usersWithScores db) c⟩

/-! ### Rank-agreement lemmas -/

theorem rankify_get? (now : String) : ∀ (l : List ScoredUser) (n i : Nat),
    (rankify now n l).get? i = (l.get? i).map (fun u =>
      ⟨n + i, u.id, u.username, u.totalScore, some (u.lastUpdated.getD now)⟩) := by
  intro l
  induction l with
  | nil => intro n i; simp [rankify]
  | cons u us ih =>
    intro n i
    cases i with
    | zero => simp [rankify]
    | succ j =>
      simp only [rankify, List.get?_cons_succ]
      rw [ih (n + 1) j]
      cases us.get? j with
      | none => rfl
      | some u' =>
        have harith : n + 1 + j = n + (j + 1) := by omega
        simp [harith]

theorem countP_gt_of_strict_sorted :
    ∀ (l : List ScoredUser), List.Pairwise (fun a b => b.totalScore < a.totalScore) l →
    ∀ (i : Nat) (u : ScoredUser), l.get? i = some u →
    l.countP (fun a => u.totalScore < a.totalScore) = i := by
  intro l
  induction l with
  | nil => intro _ i u h; simp at h
  | cons x xs ih =>
    intro hp i u hget
    rcases List.pairwise_cons.1 hp with ⟨hx, hxs⟩
    cases i with
    | zero =>
      simp only [List.get?_cons_zero, Option.some.injEq] at hget
      cases hget
      rw [List.countP_eq_zero]
      intro a ha
      simp only [decide_eq_true_eq]
      rcases List.mem_cons.1 ha with h1 | h2
      · rw [h1]; exact lt_irrefl _
      · exact not_lt.2 (le_of_lt (hx a h2))
    | succ j =>
      simp only [List.get?_cons_succ] at hget
      rw [List.countP_cons]
      have hxj : u.totalScore < x.totalScore := hx u (List.get?_mem hget)
      rw [ih hxs j u hget]
      simp [hxj]

theorem countP_eq_of_nodup_iff (l₁ l₂ : List String) (p : String → Bool)
    (h₁ : l₁.Nodup) (h₂ : l₂.Nodup)
    (h : ∀ x, (x ∈ l₁ ∧ p x = true) ↔ (x ∈ l₂ ∧ p x = true)) :
    l₁.countP p = l₂.countP p := by
  rw [List.countP_eq_length_filter, List.countP_eq_length_filter]
  refine List.Perm.length_eq ?_
  refine (List.perm_ext_iff_of_nodup (h₁.filter p) (h₂.filter p)).2 ?_
  intro a
  simp only [List.mem_filter]
  exact h a

theorem mem_histUserIds_of_totalScore_ne_zero (db : DB) (uid : String)
    (h : getTotalScore db uid ≠ 0) : uid ∈ histUserIds db := by
  by_contra hmem
  apply h
  unfold getTotalScore
  have hnil : db.scoreHistory.filter (fun e => e.userId == uid) = [] := by
    rw [List.filter_eq_nil_iff]
    intro e he heq
    apply hmem
    unfold histUserIds
    rw [List.mem_dedup]
    exact List.mem_map.2 ⟨e, he, beq_iff_eq.mp heq⟩
  rw [hnil]
  rfl

/-- C2 as stated is false: with two users tied at 200, the top-N path
assigns ranks by list position (B gets rank 2) while the single-user path
returns 1 + the count of strictly greater totals (B gets rank 1). -/
theorem C2_tie_paths_disagree :
    LeaderboardService.getTop10 dbTie (Cache.up none) "t"
      = .ok ({ scores := [⟨1, "A", "alice", 200, some "2025-01-01T00:00:02Z"⟩,
                          ⟨2, "B", "bob", 200, some "2025-01-01T00:00:01Z"⟩],
               cachedAt := none },
             Cache.up (some [⟨"A", "alice", 200⟩, ⟨"B", "bob", 200⟩]))
    ∧ getUserRank dbTie "B" = 1 := ⟨rfl, rfl⟩

/-- C2 amended: the two rank computations agree for every user in the top
N on states where score-history rows reference registered users, user ids
are unique, all users' totals are pairwise distinct, and totals are
non-negative; with tied totals they diverge (position-rank vs
strictly-better count), and a user with a negative total can likewise
diverge because zero-score users without events are invisible to
`getUserRank`. -/
theorem C2_rank_paths_agree :
    ∀ (db : DB) (now : String),
      (∀ e ∈ db.scoreHistory, e.userId ∈ db.users.map (fun u => u.id)) →
      (db.users.map (fun u => u.id)).Nodup →
      (db.users.map (fun u => getTotalScore db u.id)).Nodup →
      (∀ u ∈ db.users, 0 ≤ getTotalScore db u.id) →
      ∀ (i : Nat) (e : Top10Entry), (computeTop10 db now).get? i = some e →
      getUserRank db e.userId = e.rank := by
  intro db now hWF hIds hDistinct hNonneg i e hget
  unfold computeTop10 at hget
  rw [rankify_get? now _ 1 i] at hget
  cases htake : ((getAllUsersWithScores db).take 10).get? i with
  | none => rw [htake] at hget; simp at hget
  | some u =>
    rw [htake] at hget
    simp only [Option.map_some', Option.some.injEq] at hget
    obtain ⟨hi10, -⟩ : i < 10 ∧ True := by
      obtain ⟨hi, -⟩ := List.get?_eq_some.1 htake
      rw [List.length_take] at hi
      exact ⟨by omega, trivial⟩
    have hgetl : (getAllUsersWithScores db).get? i = some u := by
      rw [List.get?_eq_getElem?] at htake ⊢
      rw [← List.getElem?_take_of_lt hi10]
      exact htake
    have humem : u ∈ usersWithScores db :=
      (sortByScoreDesc_perm (usersWithScores db)).mem_iff.1 (List.get?_mem hgetl)
    obtain ⟨w, hw, hwu⟩ := List.mem_map.1 humem
    have hws : getTotalScore db u.id = u.totalScore := by rw [← hwu]
    have h0u : 0 ≤ u.totalScore := by
      rw [← hwu]
      exact hNonneg w hw
    have hsorted := sortByScoreDesc_pairwise (usersWithScores db)
    have hneqW : List.Pairwise (fun a b => a.totalScore ≠ b.totalScore) (usersWithScores db) := by
      have h0 : List.Pairwise (fun a b : Int => a ≠ b)
          (db.users.map (fun v => getTotalScore db v.id)) := hDistinct
      rw [List.pairwise_map] at h0
      unfold usersWithScores
      rw [List.pairwise_map]
      exact h0
    have hneq : List.Pairwise (fun a b => a.totalScore ≠ b.totalScore)
        (getAllUsersWithScores db) := by
      exact ((sortByScoreDesc_perm (usersWithScores db)).pairwise_iff
        (fun hab => Ne.symm hab)).2 hneqW
    have hstrict : List.Pairwise (fun a b => b.totalScore < a.totalScore)
        (getAllUsersWithScores db) :=
      (hsorted.and hneq).imp (fun hab => lt_of_le_of_ne hab.1 (Ne.symm hab.2))
    have hcount := countP_gt_of_strict_sorted _ hstrict i u hgetl
    have hcW : (usersWithScores db).countP (fun a => u.totalScore < a.totalScore) = i :=
      ((sortByScoreDesc_perm (usersWithScores db)).countP_eq _).symm.trans hcount
    have hcUsers : (db.users.map (fun v => v.id)).countP
        (fun uid => u.totalScore < getTotalScore db uid) = i := by
      rw [List.countP_map]
      rw [← hcW]
      unfold usersWithScores
      rw [List.countP_map]
      rfl
    have hcHist : (histUserIds db).countP
        (fun uid => u.totalScore < getTotalScore db uid) = i := by
      refine (countP_eq_of_nodup_iff (histUserIds db) (db.users.map (fun v => v.id)) _
        (List.nodup_dedup _) hIds ?_).trans hcUsers
      intro x
      constructor
      · rintro ⟨hx1, hx2⟩
        refine ⟨?_, hx2⟩
        unfold histUserIds at hx1
        rw [List.mem_dedup] at hx1
        obtain ⟨ev, hev, hevx⟩ := List.mem_map.1 hx1
        exact hevx ▸ hWF ev hev
      · rintro ⟨hx1, hx2⟩
        refine ⟨?_, hx2⟩
        apply mem_histUserIds_of_totalScore_ne_zero
        have hlt : u.totalScore < getTotalScore db x := of_decide_eq_true hx2
        exact ne_of_gt (lt_of_le_of_lt h0u hlt)
    rw [← hget]
    unfold getUserRank
    have hfin : ((histUserIds db).filter
        (fun v => getTotalScore db u.id < getTotalScore db v)).length = i := by
      rw [← List.countP_eq_length_filter]
      simp only [hws]
      exact hcHist
    simp only [hfin]

/-- Witness for C2 amended: in `dbRank` (B holds 200, A holds 50, all
hypotheses hold) the entry at position 1 of the top list is A with rank 2,
and `getUserRank` also gives A rank 2. -/
theorem C2_rank_paths_agree_witness :
    (∀ e ∈ dbRank.scoreHistory, e.userId ∈ dbRank.users.map (fun u => u.id))
    ∧ (dbRank.users.map (fun u => u.id)).Nodup
    ∧ (dbRank.users.map (fun u => getTotalScore dbRank u.id)).Nodup
    ∧ (∀ u ∈ dbRank.users, 0 ≤ getTotalScore dbRank u.id)
    ∧ (computeTop10 dbRank "t").get? 1 = some ⟨2, "A", "alice", 50, some "t1"⟩
    ∧ getUserRank dbRank "A" = 2 := by
  refine ⟨by decide, by decide, by decide, by decide, by decide, ?_⟩
  exact C2_rank_paths_agree dbRank "t" (by decide) (by decide) (by decide) (by decide)
    1 ⟨2, "A", "alice", 50, some "t1"⟩ (by decide)
